import Mathlib

/-!
Verification development for the `book-parser` repository (`src/scraper.py`).

The scraper is embedded shallowly:

* Parsed HTML pages (BeautifulSoup trees) are rose trees of element and
  text nodes (`Node`).  The narrow parsing interface the code relies on
  (find-first-descendant, find-all-descendants, get-text, next-sibling)
  is implemented over that tree, following document (preorder) order.
  Following the interface model of the spec, a fetched page or a found
  tag is modelled as present-or-absent (`Option`).
* Python dictionaries are association lists with Python insertion-order
  semantics (`dinsert`): updating an existing key keeps its position,
  a fresh key is appended.
* Network fetches are environment parameters (`FetchResult`, `PageFetch`),
  one constructor per outcome that the exception
  handlers of the code distinguish.
* The pagination `while True` loop is embedded with explicit fuel; the
  thread-pool completion order of a batch is an explicit reordering
  parameter (`complete`), assumed to be a permutation where a claim
  needs it.
-/

namespace BookScraper

/-- A node of a parsed HTML document: either a text node or an element
carrying its tag name, its `class` attribute value list, its `id`
attribute and its `href` attribute, plus its children. -/
inductive Node where
  | text : String → Node
  | elem : String → List String → Option String → Option String → List Node → Node

/-- The class list of a node (elements only; an absent `class` attribute
is modelled as the empty class list). -/
def classesOf : Node → List String
  | Node.text _ => []
  | Node.elem _ cls _ _ _ => cls

/-- The `href` attribute of a node, when present. -/
def href_of : Node → Option String
  | Node.text _ => none
  | Node.elem _ _ _ h _ => h

/-- A search filter, modelling the keyword arguments the scraper passes to
BeautifulSoup `find` / `find_all`: an optional tag name, an optional class
filter (matching when the class list of the element contains any of the listed
classes, as BeautifulSoup does for a `class_` list), an optional `id`
value, and whether an `href` attribute is required (`href=True`). -/
structure SoupFilter where
  tag : Option String
  classes : Option (List String)
  idAttr : Option String
  hrefRequired : Bool

/-- Whether a node matches a filter.  Text nodes never match. -/
def matchesFilter (f : SoupFilter) : Node → Bool
  | Node.text _ => false
  | Node.elem t cls i h _ =>
    (match f.tag with | none => true | some ft => ft = t)
    && (match f.classes with
        | none => true
        | some fcs => fcs.any (fun c => cls.contains c))
    && (match f.idAttr with | none => true | some fid => i = some fid)
    && (!f.hrefRequired || h.isSome)

mutual

/-- First match of a filter in a forest, in document (preorder) order:
each root is checked before its descendants.  Models BeautifulSoup
`find` over the children of an element. -/
def findFirstInList (f : SoupFilter) : List Node → Option Node
  | [] => none
  | n :: rest =>
    if matchesFilter f n then some n
    else match findFirstInNode f n with
      | some r => some r
      | none => findFirstInList f rest

/-- First descendant of a node matching a filter (the node itself is not
a candidate), as BeautifulSoup `element.find(...)`. -/
def findFirstInNode (f : SoupFilter) : Node → Option Node
  | Node.text _ => none
  | Node.elem _ _ _ _ cs => findFirstInList f cs

end

mutual

/-- All matches of a filter in a forest, in document (preorder) order. -/
def findAllInList (f : SoupFilter) : List Node → List Node
  | [] => []
  | n :: rest =>
    (if matchesFilter f n then [n] else []) ++ findAllInNode f n ++ findAllInList f rest

/-- All descendants of a node matching a filter, as `element.find_all(...)`. -/
def findAllInNode (f : SoupFilter) : Node → List Node
  | Node.text _ => []
  | Node.elem _ _ _ _ cs => findAllInList f cs

end

mutual

/-- The text segments of all descendant text nodes, in document order. -/
def textsOfNode : Node → List String
  | Node.text s => [s]
  | Node.elem _ _ _ _ cs => textsOfList cs

/-- The text segments of a forest, in document order. -/
def textsOfList : List Node → List String
  | [] => []
  | n :: rest => textsOfNode n ++ textsOfList rest

end

/-- Python `str.strip()`: drop whitespace from both ends. -/
def py_strip (s : String) : String :=
  String.mk (((s.toList.dropWhile Char.isWhitespace).reverse.dropWhile Char.isWhitespace).reverse)

/-- `element.get_text()`: the concatenation of all descendant text
segments; with `strip=True` each segment is stripped of surrounding
whitespace before concatenation. -/
def getText (strip : Bool) (n : Node) : String :=
  if strip then String.join ((textsOfNode n).map py_strip)
  else String.join (textsOfNode n)

/-- The first element (non-text) node of a list, used for
`find_next_sibling()`, which skips text siblings. -/
def firstElem : List Node → Option Node
  | [] => none
  | Node.text _ :: rest => firstElem rest
  | n :: _ => some n

mutual

/-- Searches a forest for the first match of a filter and returns that
next element sibling of that match: `none` when nothing matches, `some none`
when the match has no following element sibling. -/
def findWithSiblingInList (f : SoupFilter) : List Node → Option (Option Node)
  | [] => none
  | n :: rest =>
    if matchesFilter f n then some (firstElem rest)
    else match findWithSiblingInNode f n with
      | some r => some r
      | none => findWithSiblingInList f rest

/-- `element.find(...)` followed by `.find_next_sibling()` on the result,
over the descendants of a node. -/
def findWithSiblingInNode (f : SoupFilter) : Node → Option (Option Node)
  | Node.text _ => none
  | Node.elem _ _ _ _ cs => findWithSiblingInList f cs

end

/-- A scraped record: a Python `dict[str, str]` as an insertion-ordered
association list. -/
abbrev BookRecord := List (String × String)

/-- Python `dict` assignment `d[k] = v`: an existing key keeps its
position and gets the new value, a fresh key is appended at the end. -/
def dinsert (k v : String) : BookRecord → BookRecord
  | [] => [(k, v)]
  | (k0, v0) :: rest => if k0 = k then (k, v) :: rest else (k0, v0) :: dinsert k v rest

/-- Python `d.update(upd)`: assign every entry of `upd`, in order, into `d`. -/
def dict_update (d upd : BookRecord) : BookRecord :=
  upd.foldl (fun acc kv => dinsert kv.1 kv.2 acc) d

/-- The keys of a record, in order. -/
def dkeys (d : BookRecord) : List String := d.map Prod.fst

/-! ### Filters used by the scraper -/

/-- `soup.find(class_="product_main")`. -/
def main_info_filter : SoupFilter := ⟨none, some [("product_main")], none, false⟩

/-- `main_info.find("h1")`. -/
def h1_filter : SoupFilter := ⟨some ("h1"), none, none, false⟩

/-- `main_info.find("p", class_="price_color")`. -/
def price_filter : SoupFilter := ⟨some ("p"), some [("price_color")], none, false⟩

/-- `main_info.find("p", class_=["instock", "availability"])`. -/
def instock_filter : SoupFilter := ⟨some ("p"), some ["instock", "availability"], none, false⟩

/-- `main_info.find("p", class_="star-rating")`. -/
def star_filter : SoupFilter := ⟨some ("p"), some [("star-rating")], none, false⟩

/-- `soup.find("div", id="product_description", class_="sub-header")`. -/
def desc_header_filter : SoupFilter :=
  ⟨some ("div"), some [("sub-header")], some ("product_description"), false⟩

/-- `soup.find("table", class_=["table", "table-striped"])`. -/
def table_filter : SoupFilter := ⟨some ("table"), some ["table", "table-striped"], none, false⟩

/-- `table.find_all("tr")`. -/
def tr_filter : SoupFilter := ⟨some ("tr"), none, none, false⟩

/-- `row.find("th")`. -/
def th_filter : SoupFilter := ⟨some ("th"), none, none, false⟩

/-- `row.find("td")`. -/
def td_filter : SoupFilter := ⟨some ("td"), none, none, false⟩

/-- `soup.find_all("h3")`. -/
def h3_filter : SoupFilter := ⟨some ("h3"), none, none, false⟩

/-- `h3.find_all("a", href=True)`. -/
def anchor_filter : SoupFilter := ⟨some ("a"), none, none, true⟩

/-! ### Detail-page extraction (`get_book_data` and helpers) -/

/-- Outcome of fetching a detail page, distinguishing the exception
branches of `_get_book_response`: a parsed page, an HTTP-status error
(`requests.exceptions.HTTPError`), or a connectivity error
(`requests.exceptions.RequestException`). -/
inductive FetchResult where
  | success : Node → FetchResult
  | httpError : Nat → FetchResult
  | connError : FetchResult

/-- `_get_book_response`: the parsed page on success; both exception
branches are logged and yield `None`. -/
def get_book_response (fetch : String → FetchResult) (book_url : String) : Option Node :=
  match fetch book_url with
  | FetchResult.success p => some p
  | FetchResult.httpError _ => none
  | FetchResult.connError => none

/-- `_get_attr_text`: stripped text of the first descendant matching the
filter, or the empty string when nothing matches. -/
def get_attr_text (html_elem : Node) (f : SoupFilter) : String :=
  match findFirstInNode f html_elem with
  | none => ""
  | some e => getText true e

/-- The first maximal run of digit characters of a list, as a list. -/
def first_digit_run : List Char → List Char
  | [] => []
  | c :: cs => if c.isDigit then c :: cs.takeWhile Char.isDigit else first_digit_run cs

/-- `_get_stock_amount`: `re.search` for the first run of digits; the
empty string when the text holds no digit. -/
def get_stock_amount (stock_info : String) : String :=
  String.mk (first_digit_run stock_info.toList)

/-- The fixed six-entry rating table of `_get_rate`. -/
def rating_map : List (String × String) :=
  [("Zero", "0"), ("One", "1"), ("Two", "2"),
   ("Three", "3"), ("Four", "4"), ("Five", "5")]

/-- The `for cls in rate_tag["class"]` loop of `_get_rate`: the table
value of the first class found in `rating_map`, or the empty string. -/
def rate_from_classes : List String → String
  | [] => ""
  | c :: cs =>
    match rating_map.lookup c with
    | some d => d
    | none => rate_from_classes cs

/-- `_get_rate`: looks up the rating element with the given filter and
maps its first rating-word class through `rating_map`; the empty string
when the element is absent or no class is mapped. -/
def get_rate (html_elem : Node) (f : SoupFilter) : String :=
  match findFirstInNode f html_elem with
  | none => ""
  | some t => rate_from_classes (classesOf t)

/-- `_collect_description`: the stripped text of the element sibling
following the description header, or the empty string when the header or
its sibling is absent. -/
def collect_description (soup : Node) : String :=
  match findWithSiblingInNode desc_header_filter soup with
  | none => ""
  | some none => ""
  | some (some sib) => getText true sib

/-- The `th` text of a table row (`key` in `_collect_additional_info`):
empty when the row has no header cell. -/
def row_key (r : Node) : String :=
  match findFirstInNode th_filter r with
  | none => ""
  | some th => getText false th

/-- The `td` text of a table row: empty when the row has no data cell. -/
def row_val (r : Node) : String :=
  match findFirstInNode td_filter r with
  | none => ""
  | some td => getText false td

/-- The row loop of `_collect_additional_info`: rows whose key is the
empty (falsy) string are skipped, every other row assigns
`dict[key] = td text`. -/
def add_info_fold (rows : List Node) : BookRecord :=
  rows.foldl (fun d r => if row_key r = "" then d else dinsert (row_key r) (row_val r) d) []

/-- `_collect_additional_info`: the key/value table rows folded into a
dict; the empty dict when the page has no additional-info table. -/
def collect_additional_info (soup : Node) : BookRecord :=
  match findFirstInNode table_filter soup with
  | none => []
  | some t => add_info_fold (findAllInNode tr_filter t)

/-- The five-entry dict literal built by `get_book_data`. -/
def fixed_book_dict (soup main_info : Node) : BookRecord :=
  [("Book name", get_attr_text main_info h1_filter),
   ("Book price", get_attr_text main_info price_filter),
   ("In stock amount", get_stock_amount (get_attr_text main_info instock_filter)),
   ("Rate", get_rate main_info star_filter),
   ("Book description", collect_description soup)]

/-- The five fixed keys of a book record. -/
def fixed_keys : List String :=
  ["Book name", "Book price", "In stock amount", "Rate", "Book description"]

/-- `get_book_data`: the empty dict when the fetch fails or the page has
no main-info block, otherwise the fixed dict updated with the
additional-info entries.  Total: every failure is absorbed into a value,
nothing is raised. -/
def get_book_data (fetch : String → FetchResult) (book_url : String) : BookRecord :=
  match get_book_response fetch book_url with
  | none => []
  | some soup =>
    match findFirstInNode main_info_filter soup with
    | none => []
    | some main_info => dict_update (fixed_book_dict soup main_info) (collect_additional_info soup)

/-! ### Link collection (`_collect_all_books_links` and helpers) -/

/-- Outcome of fetching a listing page, distinguishing the branches of
`_process_page`: a parsed page, a 404 (`NOT_FOUND_STATUS_CODE`), another
HTTP-status error, or a connectivity error. -/
inductive PageFetch where
  | success : Node → PageFetch
  | notFound : PageFetch
  | httpError : Nat → PageFetch
  | connError : PageFetch

/-- `_process_page`: the parsed listing page on success; the 404 branch,
the other-HTTP-error branch and the connectivity branch are all logged
and yield `None`. -/
def process_page (fetch : Nat → PageFetch) (page_num : Nat) : Option Node :=
  match fetch page_num with
  | PageFetch.success p => some p
  | PageFetch.notFound => none
  | PageFetch.httpError _ => none
  | PageFetch.connError => none

/-- The fixed catalogue base of `_collect_links_from_page`. -/
def catalogue_base : String := "https://books.toscrape.com/catalogue/"

/-- The `href` attributes of `h3.find_all("a", href=True)`. -/
def anchor_hrefs (n : Node) : List String :=
  (findAllInNode anchor_filter n).filterMap href_of

/-- The links contributed by one `h3` element: each anchor `href`
prefixed with the catalogue base. -/
def links_from_h3 (heading : Node) : Finset String :=
  ((anchor_hrefs heading).map (fun h => catalogue_base ++ h)).toFinset

/-- `_collect_links_from_page`: the union over every `h3` of the page of
the prefixed anchor links of that heading. -/
def collect_links_from_page (soup : Node) : Finset String :=
  (findAllInNode h3_filter soup).foldl (fun s heading => s ∪ links_from_h3 heading) ∅

/-- The `while True` loop of `_collect_all_books_links`, with explicit
fuel: a failed page fetch breaks the loop and returns the accumulated
links; a fetched page adds its links and the loop continues on the next
page number.  `none` means the fuel ran out before the loop stopped. -/
def collect_loop (fetch : Nat → PageFetch) : Nat → Finset String → Nat → Option (Finset String)
  | _, _, 0 => none
  | n, links, fuel + 1 =>
    match process_page fetch n with
    | none => some links
    | some page => collect_loop fetch (n + 1) (links ∪ collect_links_from_page page) fuel

/-- `_collect_all_books_links`: run the pagination loop from
`start_page_num` with an empty accumulator. -/
def collect_all_books_links (fetch : Nat → PageFetch) (start_page_num : Nat) (fuel : Nat) :
    Option (Finset String) :=
  collect_loop fetch start_page_num ∅ fuel

/-! ### Batch processing (`_process_books_in_batches`) -/

/-- The batches of `for i in range(0, len(links), batch_size)` with
`batch = links[i : i + batch_size]`: the Python `range(0, N, B)` has
`ceil(N / B)` elements for `B ≥ 1` (the model is meaningful only there;
Python raises on `B = 0`). -/
def batch_slices (batch_size : Nat) (links : List String) : List (List String) :=
  (List.range ((links.length + batch_size - 1) / batch_size)).map
    (fun k => (links.drop (k * batch_size)).take batch_size)

/-- `_process_books_in_batches`: every batch is submitted to the worker
pool and its results are appended in completion order.  `extract` is the
per-URL extraction (`get_book_data` with the session), `complete` is the
`as_completed` reordering of a batch, a permutation of it. -/
def process_books_in_batches (extract : String → BookRecord)
    (complete : List String → List String) (links : List String) (batch_size : Nat) :
    List BookRecord :=
  (batch_slices batch_size links).foldl (fun acc b => acc ++ (complete b).map extract) []

/-! ### Persistence (`_save_books_to_file`) -/

/-- The `f.writelines` generator: one `key: value` line per entry, in
record order. -/
def book_lines (book : BookRecord) : String :=
  String.join (book.map (fun kv => kv.1 ++ ": " ++ kv.2 ++ "\n"))

/-- `_save_books_to_file` as the full text written to the file: the
sequential `f.write` calls folded over `enumerate(books, start=1)`. -/
def save_books_to_file (books : List BookRecord) : String :=
  (books.enum).foldl
    (fun f ib => f ++ ("Книга №" ++ toString (ib.1 + 1) ++ "\n") ++ book_lines ib.2 ++ "\n") ""

/-- The layout promised by the spec for `save`: one numbered block per
record in sequence order, each block a header line followed by the
`key: value` lines of the record, each block closed by a blank line. -/
def save_layout_spec (books : List BookRecord) : String :=
  String.join ((books.enum).map
    (fun ib => "Книга №" ++ toString (ib.1 + 1) ++ "\n" ++ book_lines ib.2 ++ "\n"))

/-- The content of the destination file after `_save_books_to_file`: mode
`"w"` truncates, so the previous content is discarded whatever it was. -/
def file_after_save (_old_file : Option String) (books : List BookRecord) : Option String :=
  some (save_books_to_file books)

/-! ### Top-level pipeline (`scrape_books`) -/

/-- The environment of one `scrape_books` run: the listing-page fetcher,
the detail-page fetcher, the (unspecified) enumeration order of
`list(set)`, and the `as_completed` batch reordering. -/
structure ScrapeEnv where
  page_fetch : Nat → PageFetch
  book_fetch : String → FetchResult
  to_list : Finset String → List String
  complete : List String → List String

/-- `scrape_books`: collect all links, process them in batches of 50,
and, only when `save` is set, overwrite the persistence file with the
collected data.  `none` when the pagination fuel runs out. -/
def scrape_books (env : ScrapeEnv) (save : Bool) (old_file : Option String) (fuel : Nat) :
    Option (List BookRecord × Option String) :=
  match collect_all_books_links env.page_fetch 1 fuel with
  | none => none
  | some all_links =>
    let data := process_books_in_batches (get_book_data env.book_fetch)
      env.complete (env.to_list all_links) 50
    some (data, if save then file_after_save old_file data else old_file)

/-! ### Derived views used in the analysis -/

/-- Whether a table row contributes an entry in `_collect_additional_info`:
its header text (the Python `key`) is truthy, i.e. non-empty. -/
def contributing_row (r : Node) : Bool := row_key r != ""

/-- The rows of the additional-info table of a page: empty when the page
has no such table. -/
def table_rows (soup : Node) : List Node :=
  match findFirstInNode table_filter soup with
  | none => []
  | some t => findAllInNode tr_filter t

/-! ### Concrete inputs used by witnesses and counterexamples -/

/-- A concrete rating element with class list `["star-rating", "Three"]`
inside a wrapper, for the C7 witness. -/
def w7_star : Node := Node.elem ("p") ["star-rating", "Three"] none none []

/-- Wrapper element holding `w7_star`. -/
def w7_elem : Node := Node.elem ("div") [] none none [w7_star]

/-- Listing page holding two headings with one book anchor each. -/
def l_page1 : Node := Node.elem ("html") [] none none
  [Node.elem ("h3") [] none none [Node.elem ("a") [] none (some ("b1.html")) []],
   Node.elem ("h3") [] none none [Node.elem ("a") [] none (some ("b2.html")) []]]

/-- Listing page holding one heading with two anchors, one a duplicate
of a `l_page1` link. -/
def l_page2 : Node := Node.elem ("html") [] none none
  [Node.elem ("h3") [] none none
    [Node.elem ("a") [] none (some ("b2.html")) [],
     Node.elem ("a") [] none (some ("b3.html")) []]]

/-- A two-page catalog: pages 1 and 2 succeed and page 3 answers 404. -/
def w3_fetch : Nat → PageFetch := fun n =>
  match n with
  | 1 => PageFetch.success l_page1
  | 2 => PageFetch.success l_page2
  | _ => PageFetch.notFound

/-- The pages of the two-page catalog, as a total function. -/
def w3_pages : Nat → Node := fun n =>
  match n with
  | 1 => l_page1
  | _ => l_page2

/-- A listing page with content but no anchors at all. -/
def w5_page : Node := Node.elem ("html") [] none none
  [Node.elem ("p") [] none none [Node.text ("no books here")]]

/-- A catalog whose first page succeeds but holds no anchors, and whose
second page answers 404. -/
def w5_fetch : Nat → PageFetch := fun n =>
  match n with
  | 1 => PageFetch.success w5_page
  | _ => PageFetch.notFound

/-- A table row whose header cell exists but carries the empty text,
next to a data cell with text: `<tr><th></th><td>x</td></tr>`. -/
def c6_row : Node := Node.elem ("tr") [] none none
  [Node.elem ("th") [] none none [],
   Node.elem ("td") [] none none [Node.text ("x")]]

/-- An additional-info table holding only `c6_row`. -/
def c6_table : Node := Node.elem ("table") ["table", "table-striped"] none none [c6_row]

/-- A page whose additional-info table is `c6_table`. -/
def c6_page : Node := Node.elem ("html") [] none none [c6_table]

/-- A table row with header text `UPC` and data text `abc`. -/
def w_row1 : Node := Node.elem ("tr") [] none none
  [Node.elem ("th") [] none none [Node.text ("UPC")],
   Node.elem ("td") [] none none [Node.text ("abc")]]

/-- A table row with header text `Tax` and data text `1.5`. -/
def w_row2 : Node := Node.elem ("tr") [] none none
  [Node.elem ("th") [] none none [Node.text ("Tax")],
   Node.elem ("td") [] none none [Node.text ("1.5")]]

/-- The heading of the concrete detail page, with padded text. -/
def w_h1 : Node := Node.elem ("h1") [] none none [Node.text (" The Title ")]

/-- The price element of the concrete detail page. -/
def w_price : Node := Node.elem ("p") [("price_color")] none none [Node.text ("£51.77")]

/-- The availability element of the concrete detail page. -/
def w_stock : Node := Node.elem ("p") ["instock", "availability"] none none
  [Node.text (" In stock (22 available) ")]

/-- The main-info block of the concrete detail page. -/
def w_main : Node := Node.elem ("div") [("product_main")] none none
  [w_h1, w_price, w_stock, w7_star]

/-- The description header of the concrete detail page. -/
def w_desc_header : Node :=
  Node.elem ("div") [("sub-header")] (some ("product_description")) none []

/-- The description paragraph following the header. -/
def w_desc_sib : Node := Node.elem ("p") [] none none [Node.text ("A nice book.")]

/-- The additional-info table of the concrete detail page. -/
def w_table : Node := Node.elem ("table") ["table", "table-striped"] none none [w_row1, w_row2]

/-- A complete well-formed detail page. -/
def w_page : Node := Node.elem ("html") [] none none
  [w_main, w_desc_header, w_desc_sib, w_table]

/-- A fetch that succeeds with `w_page` for every URL. -/
def w_fetch : String → FetchResult := fun _ => FetchResult.success w_page

/-- A table row lacking a header cell altogether. -/
def c1_row : Node := Node.elem ("tr") [] none none
  [Node.elem ("td") [] none none [Node.text ("no header")]]

/-- An additional-info table holding only the header-less row. -/
def c1_table : Node := Node.elem ("table") ["table", "table-striped"] none none [c1_row]

/-- A detail page with a well-formed main-info block and a one-row table
whose single row lacks a header cell. -/
def c1_page : Node := Node.elem ("html") [] none none [w_main, c1_table]

/-- A fetch that succeeds with `c1_page` for every URL. -/
def c1_fetch : String → FetchResult := fun _ => FetchResult.success c1_page

/-- A minimal concrete environment: the catalog is empty (page 1 already
answers 404), every detail fetch fails, sets enumerate to the empty
list, and batches complete in submission order. -/
def c10_env : ScrapeEnv where
  page_fetch := fun _ => PageFetch.notFound
  book_fetch := fun _ => FetchResult.connError
  to_list := fun _ => []
  complete := id

/-! ### Helper lemmas about the dict model -/

theorem dinsert_ne_nil (k v : String) (d : BookRecord) : dinsert k v d ≠ [] := by
  cases d with
  | nil => simp [dinsert]
  | cons kv rest =>
    obtain ⟨k0, v0⟩ := kv
    by_cases h : k0 = k <;> simp [dinsert, h]

theorem dict_update_ne_nil (d upd : BookRecord) (hd : d ≠ []) : dict_update d upd ≠ [] := by
  induction upd generalizing d with
  | nil => simpa [dict_update] using hd
  | cons kv rest ih =>
    have : dict_update d (kv :: rest) = dict_update (dinsert kv.1 kv.2 d) rest := rfl
    rw [this]
    exact ih _ (dinsert_ne_nil _ _ _)

theorem dinsert_of_fresh (k v : String) (d : BookRecord) (h : k ∉ dkeys d) :
    dinsert k v d = d ++ [(k, v)] := by
  induction d with
  | nil => simp [dinsert]
  | cons kv rest ih =>
    obtain ⟨k0, v0⟩ := kv
    have hk : k0 ≠ k := by
      intro he
      exact h (by simp [dkeys, he])
    simp only [dinsert, hk, if_false, List.cons_append, List.cons.injEq, true_and]
    exact ih (fun hm => h (by simp [dkeys] at hm ⊢; exact Or.inr hm))

theorem dict_update_of_fresh (d upd : BookRecord)
    (hfresh : ∀ k ∈ dkeys upd, k ∉ dkeys d) (hnodup : (dkeys upd).Nodup) :
    dict_update d upd = d ++ upd := by
  induction upd generalizing d with
  | nil => simp [dict_update]
  | cons kv rest ih =>
    obtain ⟨k, v⟩ := kv
    have hcons : (k :: dkeys rest).Nodup := by simpa [dkeys] using hnodup
    obtain ⟨hknr, hndr⟩ := List.nodup_cons.mp hcons
    have hstep : dict_update d ((k, v) :: rest) = dict_update (dinsert k v d) rest := rfl
    have hkd : k ∉ dkeys d := hfresh k (by simp [dkeys])
    have hfr : ∀ k0 ∈ dkeys rest, k0 ∉ dkeys (d ++ [(k, v)]) := by
      intro k0 hk0 hmem
      have hmem2 : k0 ∈ dkeys d ∨ k0 = k := by simpa [dkeys] using hmem
      cases hmem2 with
      | inl h0 =>
        refine hfresh k0 ?_ h0
        simp only [dkeys, List.map_cons] at hk0 ⊢
        exact List.mem_cons_of_mem _ hk0
      | inr h0 => exact hknr (h0 ▸ hk0)
    rw [hstep, dinsert_of_fresh k v d hkd, ih (d ++ [(k, v)]) hfr hndr]
    simp

/-! ### Claim C4 -/

/-- Claim C4: `get_book_data` is total (the embedding is a Lean function,
every fetch failure having been absorbed into a value, so nothing is
raised to the caller) and returns the empty record exactly when the page
fetch fails (HTTP or transport error) or the fetched page has no
main-info block; in every other case the record is non-empty. -/
theorem c4_get_book_data_empty_iff (fetch : String → FetchResult) (book_url : String) :
    get_book_data fetch book_url = [] ↔
      (get_book_response fetch book_url = none ∨
        ∃ soup, get_book_response fetch book_url = some soup ∧
          findFirstInNode main_info_filter soup = none) := by
  unfold get_book_data
  cases h : get_book_response fetch book_url with
  | none => simp
  | some soup =>
    cases hm : findFirstInNode main_info_filter soup with
    | none => simp [hm]
    | some main_info =>
      simp only [hm, Option.some.injEq, reduceCtorEq, false_or]
      constructor
      · intro he
        exact absurd he (dict_update_ne_nil _ _ (by simp [fixed_book_dict]))
      · rintro ⟨s, hs, hns⟩
        rw [← hs] at hns
        simp [hns] at hm

/-! ### Claim C7: the rating lookup -/

theorem rate_from_classes_of_unmapped (cls : List String)
    (h : ∀ c ∈ cls, rating_map.lookup c = none) : rate_from_classes cls = "" := by
  induction cls with
  | nil => rfl
  | cons c rest ih =>
    have hc := h c (by simp)
    simp only [rate_from_classes, hc]
    exact ih (fun c0 hc0 => h c0 (List.mem_cons_of_mem _ hc0))

theorem rate_from_classes_first (cls : List String) (i : Nat) (c d : String)
    (hc : cls[i]? = some c) (hd : rating_map.lookup c = some d)
    (hbefore : ∀ j, j < i → ∀ c0, cls[j]? = some c0 → rating_map.lookup c0 = none) :
    rate_from_classes cls = d := by
  induction cls generalizing i with
  | nil => simp at hc
  | cons c1 rest ih =>
    cases i with
    | zero =>
      have : c1 = c := by simpa using hc
      subst this
      simp [rate_from_classes, hd]
    | succ i =>
      have h0 : rating_map.lookup c1 = none := hbefore 0 (Nat.succ_pos i) c1 (by simp)
      simp only [rate_from_classes, h0]
      exact ih i (by simpa using hc)
        (fun j hj c0 hc0 => hbefore (j + 1) (by omega) c0 (by simpa using hc0))

/-- Claim C7: for every filter and every element, `_get_rate` returns,
through the fixed six-entry `rating_map`, the digit of the first mapped
CSS class of the rating element it finds; when the rating element is
absent, or its class list holds no mapped class, it returns the empty
string.  The embedding is total, so no input makes it raise. -/
theorem c7_get_rate_spec (f : SoupFilter) (html_elem : Node) :
    (findFirstInNode f html_elem = none → get_rate html_elem f = "") ∧
    (∀ t, findFirstInNode f html_elem = some t →
      (∀ c ∈ classesOf t, rating_map.lookup c = none) → get_rate html_elem f = "") ∧
    (∀ (t : Node) (i : Nat) (c d : String), findFirstInNode f html_elem = some t →
      (classesOf t)[i]? = some c → rating_map.lookup c = some d →
      (∀ j, j < i → ∀ c0, (classesOf t)[j]? = some c0 → rating_map.lookup c0 = none) →
      get_rate html_elem f = d) := by
  refine ⟨?_, ?_, ?_⟩
  · intro h
    simp [get_rate, h]
  · intro t ht hall
    simp only [get_rate, ht]
    exact rate_from_classes_of_unmapped _ hall
  · intro t i c d ht hc hd hb
    simp only [get_rate, ht]
    exact rate_from_classes_first _ i c d hc hd hb

/-- Witness for C7: on the concrete element the first mapped class is
`Three` (index 1; index 0 is the unmapped `star-rating`), so the rate is
the digit three. -/
theorem c7_get_rate_spec_witness : get_rate w7_elem star_filter = "3" :=
  (c7_get_rate_spec star_filter w7_elem).2.2 w7_star 1 ("Three") ("3") rfl rfl rfl
    (by
      intro j hj c0 hc0
      interval_cases j
      have : c0 = "star-rating" := by simpa [w7_star, classesOf] using hc0.symm
      subst this
      decide)

/-! ### Claim C9: link extraction from one listing page -/

theorem mem_foldl_union (g : Node → Finset String) (l : List Node) (init : Finset String)
    (x : String) :
    x ∈ l.foldl (fun s n => s ∪ g n) init ↔ x ∈ init ∨ ∃ n ∈ l, x ∈ g n := by
  induction l generalizing init with
  | nil => simp
  | cons a l ih =>
    simp only [List.foldl_cons, ih, Finset.mem_union, List.mem_cons]
    constructor
    · rintro ((h | h) | ⟨n, hn, hx⟩)
      · exact Or.inl h
      · exact Or.inr ⟨a, Or.inl rfl, h⟩
      · exact Or.inr ⟨n, Or.inr hn, hx⟩
    · rintro (h | ⟨n, rfl | hn, hx⟩)
      · exact Or.inl (Or.inl h)
      · exact Or.inl (Or.inr hx)
      · exact Or.inr ⟨n, hn, hx⟩

/-- Claim C9: a URL is collected from a listing page exactly when some
`h3` heading of the page contains an anchor with an `href` attribute, and
the URL is the fixed catalogue base followed by that `href` string. -/
theorem c9_collect_links_iff (soup : Node) (u : String) :
    u ∈ collect_links_from_page soup ↔
      ∃ heading ∈ findAllInNode h3_filter soup,
        ∃ h ∈ anchor_hrefs heading, u = catalogue_base ++ h := by
  unfold collect_links_from_page
  rw [mem_foldl_union]
  simp only [Finset.not_mem_empty, false_or, links_from_h3, List.mem_toFinset, List.mem_map]
  constructor
  · rintro ⟨n, hn, h, hh, rfl⟩
    exact ⟨n, hn, h, hh, rfl⟩
  · rintro ⟨n, hn, h, hh, rfl⟩
    exact ⟨n, hn, h, hh, rfl⟩

/-! ### Claim C8: the persistence layout -/

theorem string_join_cons (s : String) (l : List String) :
    String.join (s :: l) = s ++ String.join l := by
  simp [String.join_eq]
  rfl

theorem string_foldl_append {α : Type} (g : α → String) (l : List α) (init : String) :
    l.foldl (fun acc a => acc ++ g a) init = init ++ String.join (l.map g) := by
  induction l generalizing init with
  | nil => simp [String.join]
  | cons a l ih =>
    simp only [List.foldl_cons, List.map_cons, string_join_cons, ih,
      String.append_assoc]

/-- Claim C8: saving writes exactly the spec layout — one numbered block
per record in sequence order, each block a header line followed by the
`key: value` lines of the record in insertion order and closed by a blank
line — and the previous file content, whatever it was, is discarded
(mode `"w"` truncates). -/
theorem c8_save_layout (old_file : Option String) (books : List BookRecord) :
    file_after_save old_file books = some (save_layout_spec books) := by
  unfold file_after_save save_books_to_file save_layout_spec
  simp only [String.append_assoc]
  refine congrArg some ?_
  refine (string_foldl_append _ _ _).trans ?_
  simp

/-! ### Claim C2: batch partitioning -/

theorem batch_slices_nil (B : Nat) : batch_slices B [] = [] := by
  have h0 : (B - 1) / B = 0 := by
    cases B with
    | zero => simp
    | succ b => exact Nat.div_eq_of_lt (by omega)
  simp [batch_slices, h0]

theorem batch_slices_cons (B : Nat) (hB : 1 ≤ B) (l : List String) (hl : l ≠ []) :
    batch_slices B l = l.take B :: batch_slices B (l.drop B) := by
  have hN : 1 ≤ l.length := List.length_pos.mpr hl
  unfold batch_slices
  have hM : (l.length + B - 1) / B = (l.length - 1) / B + 1 := by
    have h1 : l.length + B - 1 = l.length - 1 + B := by omega
    rw [h1, Nat.add_div_right _ (by omega)]
  have hM2 : ((l.drop B).length + B - 1) / B = (l.length - 1) / B := by
    rw [List.length_drop]
    rcases le_or_lt B l.length with h | h
    · have h2 : l.length - B + B - 1 = l.length - 1 := by omega
      rw [h2]
    · have h0 : l.length - B = 0 := by omega
      have ha : (0 + B - 1) / B = 0 := Nat.div_eq_of_lt (by omega)
      have hb : (l.length - 1) / B = 0 := Nat.div_eq_of_lt (by omega)
      rw [h0, ha, hb]
  rw [hM, List.range_succ_eq_map, List.map_cons]
  congr 1
  · simp
  · rw [hM2, List.map_map]
    refine List.map_congr_left ?_
    intro k _
    have hs : Nat.succ k * B = B + k * B := by
      rw [Nat.succ_mul, Nat.add_comm]
    simp only [Function.comp_apply, hs, ← List.drop_drop]

theorem flatten_batch_slices_bounded (B : Nat) (hB : 1 ≤ B) :
    ∀ (N : Nat) (l : List String), l.length ≤ N → (batch_slices B l).flatten = l := by
  intro N
  induction N with
  | zero =>
    intro l hl
    have : l = [] := List.eq_nil_of_length_eq_zero (Nat.le_zero.mp hl)
    subst this
    simp [batch_slices_nil]
  | succ n ih =>
    intro l hl
    rcases eq_or_ne l [] with rfl | hne
    · simp [batch_slices_nil]
    · have h1 : 1 ≤ l.length := List.length_pos.mpr hne
      rw [batch_slices_cons B hB l hne, List.flatten_cons,
        ih (l.drop B) (by simp [List.length_drop]; omega), List.take_append_drop]

theorem flatten_batch_slices (B : Nat) (hB : 1 ≤ B) (l : List String) :
    (batch_slices B l).flatten = l :=
  flatten_batch_slices_bounded B hB l.length l le_rfl

theorem foldl_append_eq_flatten {α β : Type} (g : α → List β) (l : List α) (init : List β) :
    l.foldl (fun acc a => acc ++ g a) init = init ++ (l.map g).flatten := by
  induction l generalizing init with
  | nil => simp
  | cons a l ih => simp [ih, List.append_assoc]

theorem flatten_map_perm (extract : String → BookRecord)
    (complete : List String → List String) (hperm : ∀ b, (complete b).Perm b)
    (bs : List (List String)) :
    ((bs.map (fun b => (complete b).map extract)).flatten).Perm
      ((bs.map (fun b => b.map extract)).flatten) := by
  induction bs with
  | nil => simp
  | cons b bs ih =>
    simp only [List.map_cons, List.flatten_cons]
    exact ((hperm b).map extract).append ih

/-- Claim C2: for `batch_size = B ≥ 1` and any `as_completed` ordering
that permutes each batch, `_process_books_in_batches` on N URLs returns
exactly N records — one per URL, the batch results being a permutation of
the per-URL extractions — and processes exactly `ceil(N / B)` batches,
batch `k` being the contiguous slice `links[k*B : k*B + B]` of the input
in its given order. -/
theorem c2_process_in_batches_spec (extract : String → BookRecord)
    (complete : List String → List String) (links : List String) (B : Nat)
    (hB : 1 ≤ B) (hperm : ∀ b, (complete b).Perm b) :
    (process_books_in_batches extract complete links B).length = links.length ∧
    (batch_slices B links).length = (links.length + B - 1) / B ∧
    (∀ k, k < (batch_slices B links).length →
      (batch_slices B links)[k]? = some ((links.drop (k * B)).take B)) ∧
    (process_books_in_batches extract complete links B).Perm (links.map extract) := by
  have hproc : process_books_in_batches extract complete links B =
      ((batch_slices B links).map (fun b => (complete b).map extract)).flatten := by
    unfold process_books_in_batches
    rw [foldl_append_eq_flatten]
    simp
  have hperm2 : (process_books_in_batches extract complete links B).Perm (links.map extract) := by
    rw [hproc]
    refine (flatten_map_perm extract complete hperm (batch_slices B links)).trans ?_
    rw [← List.map_flatten, flatten_batch_slices B hB links]
  refine ⟨hperm2.length_eq.trans (by simp), by simp [batch_slices], ?_, hperm2⟩
  intro k hk
  unfold batch_slices at hk ⊢
  simp only [List.length_map, List.length_range] at hk
  simp [List.getElem?_map, List.getElem?_range, hk]

/-- Witness for C2: three URLs in batches of two, with the identity
completion order: two batches, three records. -/
theorem c2_process_in_batches_spec_witness :
    (process_books_in_batches (fun u => [(("url"), u)]) id ["a", "b", "c"] 2).length = 3 ∧
    (batch_slices 2 ["a", "b", "c"]).length = 2 ∧
    (∀ k, k < (batch_slices 2 ["a", "b", "c"]).length →
      (batch_slices 2 ["a", "b", "c"])[k]? =
        some (((["a", "b", "c"] : List String).drop (k * 2)).take 2)) ∧
    (process_books_in_batches (fun u => [(("url"), u)]) id ["a", "b", "c"] 2).Perm
      ((["a", "b", "c"] : List String).map (fun u => [(("url"), u)])) :=
  c2_process_in_batches_spec (fun u => [(("url"), u)]) id ["a", "b", "c"] 2
    (by decide) (fun b => List.Perm.refl b)

/-! ### Claims C3 and C5: the pagination loop -/

theorem biUnion_range_succ_left (g : Nat → Finset String) (k : Nat) :
    (Finset.range (k + 1)).biUnion g = g 0 ∪ (Finset.range k).biUnion (fun i => g (i + 1)) := by
  ext x
  simp only [Finset.mem_biUnion, Finset.mem_range, Finset.mem_union]
  constructor
  · rintro ⟨i, hi, hx⟩
    cases i with
    | zero => exact Or.inl hx
    | succ i => exact Or.inr ⟨i, by omega, hx⟩
  · rintro (hx | ⟨i, hi, hx⟩)
    · exact ⟨0, by omega, hx⟩
    · exact ⟨i + 1, by omega, hx⟩

theorem collect_loop_run (fetch : Nat → PageFetch) :
    ∀ (k n : Nat) (acc : Finset String) (fuel : Nat) (pg : Nat → Node),
      k < fuel →
      (∀ i, i < k → process_page fetch (n + i) = some (pg i)) →
      process_page fetch (n + k) = none →
      collect_loop fetch n acc fuel =
        some (acc ∪ (Finset.range k).biUnion (fun i => collect_links_from_page (pg i))) := by
  intro k
  induction k with
  | zero =>
    intro n acc fuel pg hfuel _ hend
    obtain ⟨fuel0, rfl⟩ : ∃ m, fuel = m + 1 := ⟨fuel - 1, by omega⟩
    have h0 : process_page fetch n = none := by simpa using hend
    simp [collect_loop, h0]
  | succ k ih =>
    intro n acc fuel pg hfuel hsucc hend
    obtain ⟨fuel0, rfl⟩ : ∃ m, fuel = m + 1 := ⟨fuel - 1, by omega⟩
    have h0 : process_page fetch n = some (pg 0) := by simpa using hsucc 0 (by omega)
    have hrest := ih (n + 1) (acc ∪ collect_links_from_page (pg 0)) fuel0 (fun i => pg (i + 1))
      (by omega)
      (fun i hi => by
        have := hsucc (i + 1) (by omega)
        simpa [Nat.add_assoc, Nat.add_comm 1 i] using this)
      (by
        have := hend
        simpa [Nat.add_assoc, Nat.add_comm 1 k] using this)
    simp only [collect_loop, h0]
    rw [hrest, biUnion_range_succ_left (fun i => collect_links_from_page (pg i)) k,
      Finset.union_assoc]

/-- Claim C3: against a catalog whose pages `1 .. P` fetch successfully
and whose page `P + 1` answers not-found, `_collect_all_books_links`
terminates — any fuel of at least `P + 1` steps already returns — and
returns exactly the union of the link sets of the `P` pages, a `Finset`
whose cardinality is the number of unique detail URLs across them. -/
theorem c3_collect_all_links_spec (fetch : Nat → PageFetch) (pg : Nat → Node) (P fuel : Nat)
    (hfuel : P + 1 ≤ fuel)
    (hsucc : ∀ i, 1 ≤ i → i ≤ P → fetch i = PageFetch.success (pg i))
    (hnf : fetch (P + 1) = PageFetch.notFound) :
    collect_all_books_links fetch 1 fuel =
      some ((Finset.range P).biUnion (fun i => collect_links_from_page (pg (i + 1)))) ∧
    ∀ s, collect_all_books_links fetch 1 fuel = some s →
      s.card = ((Finset.range P).biUnion (fun i => collect_links_from_page (pg (i + 1)))).card := by
  have hrun := collect_loop_run fetch P 1 ∅ fuel (fun i => pg (i + 1)) (by omega)
    (fun i hi => by
      have h1 : 1 + i = i + 1 := by omega
      rw [h1]
      simp [process_page, hsucc (i + 1) (by omega) (by omega)])
    (by
      have h1 : 1 + P = P + 1 := by omega
      rw [h1]
      simp [process_page, hnf])
  have hmain : collect_all_books_links fetch 1 fuel =
      some ((Finset.range P).biUnion (fun i => collect_links_from_page (pg (i + 1)))) := by
    unfold collect_all_books_links
    rw [hrun]
    simp
  refine ⟨hmain, ?_⟩
  intro s hs
  rw [hmain] at hs
  simp only [Option.some.injEq] at hs
  rw [hs]

/-- Claim C5: one step of the pagination loop stops exactly on a fetch
failure — not-found, any other HTTP status error, and a connectivity
error all break the loop, which returns precisely the links accumulated
so far — while a successfully fetched page never breaks it: the loop
continues on the next page number with the links of that page added, and a
successful page contributing zero links continues with the accumulator
unchanged. -/
theorem c5_loop_stop_conditions (fetch : Nat → PageFetch) (n : Nat) (acc : Finset String)
    (fuel : Nat) :
    (fetch n = PageFetch.notFound → collect_loop fetch n acc (fuel + 1) = some acc) ∧
    (∀ st, fetch n = PageFetch.httpError st → collect_loop fetch n acc (fuel + 1) = some acc) ∧
    (fetch n = PageFetch.connError → collect_loop fetch n acc (fuel + 1) = some acc) ∧
    (∀ page, fetch n = PageFetch.success page →
      collect_loop fetch n acc (fuel + 1) =
        collect_loop fetch (n + 1) (acc ∪ collect_links_from_page page) fuel) ∧
    (∀ page, fetch n = PageFetch.success page → collect_links_from_page page = ∅ →
      collect_loop fetch n acc (fuel + 1) = collect_loop fetch (n + 1) acc fuel) := by
  refine ⟨?_, ?_, ?_, ?_, ?_⟩
  · intro h
    simp [collect_loop, process_page, h]
  · intro st h
    simp [collect_loop, process_page, h]
  · intro h
    simp [collect_loop, process_page, h]
  · intro page h
    simp [collect_loop, process_page, h]
  · intro page h hempty
    simp [collect_loop, process_page, h, hempty]

/-- Witness for C3: the two-page catalog terminates with fuel 5 and
yields the union of the links of both pages (three unique URLs from four
anchors). -/
theorem c3_collect_all_links_spec_witness :
    collect_all_books_links w3_fetch 1 5 =
      some ((Finset.range 2).biUnion (fun i => collect_links_from_page (w3_pages (i + 1)))) ∧
    ((Finset.range 2).biUnion (fun i => collect_links_from_page (w3_pages (i + 1)))).card = 3 := by
  have h := c3_collect_all_links_spec w3_fetch w3_pages 2 5 (by omega)
    (by
      intro i h1 h2
      interval_cases i <;> rfl)
    rfl
  exact ⟨h.1, by decide⟩

/-- Witness for C5: the zero-anchor page does not stop the loop — the
step at page 1 continues to page 2 with the accumulator unchanged — and
the 404 at page 2 stops it, returning what was accumulated. -/
theorem c5_loop_stop_conditions_witness :
    collect_loop w5_fetch 1 ∅ 2 = collect_loop w5_fetch 2 ∅ 1 ∧
    collect_loop w5_fetch 2 ∅ 1 = some ∅ := by
  constructor
  · exact (c5_loop_stop_conditions w5_fetch 1 ∅ 1).2.2.2.2 w5_page rfl (by decide)
  · exact (c5_loop_stop_conditions w5_fetch 2 ∅ 0).1 rfl

/-! ### Claim C6: additional-info extraction -/

theorem add_info_fold_aux (rows : List Node) :
    ∀ d : BookRecord,
      (∀ r ∈ rows, contributing_row r = true → row_key r ∉ dkeys d) →
      ((rows.filter contributing_row).map row_key).Nodup →
      rows.foldl
          (fun d r => if row_key r = "" then d else dinsert (row_key r) (row_val r) d) d =
        d ++ (rows.filter contributing_row).map (fun r => (row_key r, row_val r)) := by
  induction rows with
  | nil =>
    intro d _ _
    simp
  | cons r rest ih =>
    intro d hfresh hnodup
    by_cases hc : row_key r = ""
    · have hcr : contributing_row r = false := by simp [contributing_row, hc]
      rw [List.foldl_cons, if_pos hc, List.filter_cons_of_neg (by simp [hcr])]
      exact ih d (fun r0 h0 hc0 => hfresh r0 (List.mem_cons_of_mem _ h0) hc0)
        (by rwa [List.filter_cons_of_neg (by simp [hcr])] at hnodup)
    · have hcr : contributing_row r = true := by simp [contributing_row, hc]
      rw [List.filter_cons_of_pos (by simp [hcr])] at hnodup ⊢
      rw [List.map_cons, List.nodup_cons] at hnodup
      obtain ⟨hhead, htail⟩ := hnodup
      rw [List.foldl_cons, if_neg hc,
        dinsert_of_fresh _ _ d (hfresh r (List.mem_cons_self r rest) hcr)]
      have hfr : ∀ r0 ∈ rest, contributing_row r0 = true →
          row_key r0 ∉ dkeys (d ++ [(row_key r, row_val r)]) := by
        intro r0 h0 hc0 hmem
        have hmem2 : row_key r0 ∈ dkeys d ∨ row_key r0 = row_key r := by
          simpa [dkeys] using hmem
        cases hmem2 with
        | inl h1 => exact hfresh r0 (List.mem_cons_of_mem _ h0) hc0 h1
        | inr h1 =>
          exact hhead (h1 ▸ List.mem_map_of_mem row_key (List.mem_filter_of_mem h0 hc0))
      rw [ih (d ++ [(row_key r, row_val r)]) hfr htail]
      simp

theorem add_info_fold_char (rows : List Node)
    (hnodup : ((rows.filter contributing_row).map row_key).Nodup) :
    add_info_fold rows = (rows.filter contributing_row).map (fun r => (row_key r, row_val r)) := by
  have h := add_info_fold_aux rows [] (by simp [dkeys]) hnodup
  simpa [add_info_fold] using h

/-- Claim C6 (amended): in `_collect_additional_info`, a table row whose
header text is the empty string — in particular any row lacking a header
cell — is skipped entirely and contributes nothing; every other row
contributes the entry (header text, data-cell text — the empty string
when the row has no data cell), one entry per such row as long as the
contributing header texts are pairwise distinct. -/
theorem c6_additional_info_rows :
    (∀ (pre post : List Node) (r : Node), row_key r = "" →
      add_info_fold (pre ++ r :: post) = add_info_fold (pre ++ post)) ∧
    (∀ rows : List Node, ((rows.filter contributing_row).map row_key).Nodup →
      add_info_fold rows =
        (rows.filter contributing_row).map (fun r => (row_key r, row_val r))) ∧
    (∀ soup t, findFirstInNode table_filter soup = some t →
      collect_additional_info soup = add_info_fold (findAllInNode tr_filter t)) := by
  refine ⟨?_, fun rows h => add_info_fold_char rows h, ?_⟩
  · intro pre post r h
    unfold add_info_fold
    rw [List.foldl_append, List.foldl_append, List.foldl_cons, if_pos h]
  · intro soup t h
    simp [collect_additional_info, h]

/-- Counterexample to C6 as stated: the row `<tr><th></th><td>x</td></tr>`
has both a header cell and a data cell, yet `_collect_additional_info`
over a page whose table holds exactly this row produces the empty
mapping — the row contributes no entry, because its header text is the
empty (falsy) string. -/
theorem c6_empty_header_counterexample :
    (findFirstInNode th_filter c6_row).isSome = true ∧
    (findFirstInNode td_filter c6_row).isSome = true ∧
    findAllInNode tr_filter c6_table = [c6_row] ∧
    findFirstInNode table_filter c6_page = some c6_table ∧
    collect_additional_info c6_page = [] :=
  ⟨rfl, rfl, rfl, rfl, rfl⟩

/-- Witness for C6: a row with empty header text is dropped wherever it
sits, and two distinct-key rows produce exactly their two entries. -/
theorem c6_additional_info_rows_witness :
    add_info_fold ([] ++ c6_row :: [w_row1]) = add_info_fold ([] ++ [w_row1]) ∧
    add_info_fold [w_row1, w_row2] =
      (([w_row1, w_row2].filter contributing_row).map (fun r => (row_key r, row_val r))) :=
  ⟨c6_additional_info_rows.1 [] [w_row1] c6_row rfl,
   c6_additional_info_rows.2.1 [w_row1, w_row2] (by decide)⟩

/-! ### Claim C1: the shape of an extracted record -/

theorem collect_additional_info_eq_fold (soup : Node) :
    collect_additional_info soup = add_info_fold (table_rows soup) := by
  unfold collect_additional_info table_rows
  cases findFirstInNode table_filter soup <;> rfl

/-- Claim C1 (amended): for a detail page whose fetch succeeds, whose
main-info block is found and contains a heading, and whose
additional-info rows all carry non-empty, pairwise-distinct header texts
distinct from the five fixed keys, `get_book_data` returns a record
whose keys are exactly the five fixed keys followed by one key per
additional-info row, so with `5 + (number of rows)` entries, and the
value of the `Book name` key is exactly the stripped heading text. -/
theorem c1_book_record_shape (fetch : String → FetchResult) (book_url : String)
    (soup main_info h1_node : Node)
    (hf : fetch book_url = FetchResult.success soup)
    (hmain : findFirstInNode main_info_filter soup = some main_info)
    (hh1 : findFirstInNode h1_filter main_info = some h1_node)
    (hcontrib : ∀ r ∈ table_rows soup, contributing_row r = true)
    (hnodup : ((table_rows soup).map row_key).Nodup)
    (hdisj : ∀ r ∈ table_rows soup, row_key r ∉ fixed_keys) :
    dkeys (get_book_data fetch book_url) = fixed_keys ++ (table_rows soup).map row_key ∧
    (get_book_data fetch book_url).length = 5 + (table_rows soup).length ∧
    (get_book_data fetch book_url).lookup ("Book name") = some (getText true h1_node) := by
  have hresp : get_book_response fetch book_url = some soup := by
    simp [get_book_response, hf]
  have hdata : get_book_data fetch book_url =
      dict_update (fixed_book_dict soup main_info) (collect_additional_info soup) := by
    simp [get_book_data, hresp, hmain]
  have hfilter : (table_rows soup).filter contributing_row = table_rows soup :=
    List.filter_eq_self.mpr hcontrib
  have hadd : collect_additional_info soup =
      (table_rows soup).map (fun r => (row_key r, row_val r)) := by
    rw [collect_additional_info_eq_fold,
      add_info_fold_char (table_rows soup) (by rw [hfilter]; exact hnodup), hfilter]
  have hkeysmap : dkeys ((table_rows soup).map (fun r => (row_key r, row_val r))) =
      (table_rows soup).map row_key := by
    simp [dkeys, List.map_map]
  have hkeysfixed : dkeys (fixed_book_dict soup main_info) = fixed_keys := rfl
  have hupd : dict_update (fixed_book_dict soup main_info) (collect_additional_info soup) =
      fixed_book_dict soup main_info ++
        (table_rows soup).map (fun r => (row_key r, row_val r)) := by
    rw [hadd]
    refine dict_update_of_fresh _ _ ?_ ?_
    · intro k hk
      rw [hkeysmap] at hk
      obtain ⟨r, hr, rfl⟩ := List.mem_map.mp hk
      rw [hkeysfixed]
      exact hdisj r hr
    · rw [hkeysmap]
      exact hnodup
  rw [hdata, hupd]
  refine ⟨?_, ?_, ?_⟩
  · rw [dkeys, List.map_append]
    rw [show List.map Prod.fst (fixed_book_dict soup main_info) = fixed_keys from rfl]
    rw [← hkeysmap]
    rfl
  · simp only [List.length_append, List.length_map]
    rw [show (fixed_book_dict soup main_info).length = 5 from rfl]
  · have hname : get_attr_text main_info h1_filter = getText true h1_node := by
      simp [get_attr_text, hh1]
    simp [fixed_book_dict, List.lookup, hname]

/-- Counterexample to C1 as stated: a detail page whose fetch succeeds,
whose main-info block is present, and whose additional-info table has
exactly one row — a row lacking a header cell — yields a record with
five entries, not the `5 + 1` the claim requires ("one entry per
additional-info table row"). -/
theorem c1_headerless_row_counterexample :
    get_book_response c1_fetch ("u") = some c1_page ∧
    (findFirstInNode main_info_filter c1_page).isSome = true ∧
    (table_rows c1_page).length = 1 ∧
    (get_book_data c1_fetch ("u")).length = 5 :=
  ⟨rfl, rfl, rfl, rfl⟩

/-- Witness for C1: on the concrete well-formed page the record keys are
the five fixed keys plus `UPC` and `Tax`, seven entries, and the book
name is the stripped heading text. -/
theorem c1_book_record_shape_witness :
    dkeys (get_book_data w_fetch ("u")) = fixed_keys ++ (table_rows w_page).map row_key ∧
    (get_book_data w_fetch ("u")).length = 5 + (table_rows w_page).length ∧
    (get_book_data w_fetch ("u")).lookup ("Book name") = some (getText true w_h1) :=
  c1_book_record_shape w_fetch ("u") w_page w_main w_h1 rfl rfl rfl
    (by decide) (by decide) (by decide)

/-! ### Claim C10: the save flag is a pure frame effect -/

/-- Claim C10: `scrape_books` leaves the persistence file untouched when
`save` is false, overwrites it with exactly the serialization of the collected
records when `save` is true, and the returned list of records does
not depend on the flag. -/
theorem c10_save_flag_frame (env : ScrapeEnv) (old_file : Option String) (fuel : Nat) :
    (∀ recs f2, scrape_books env false old_file fuel = some (recs, f2) → f2 = old_file) ∧
    (∀ recs f2, scrape_books env true old_file fuel = some (recs, f2) →
      f2 = some (save_books_to_file recs)) ∧
    (scrape_books env true old_file fuel).map Prod.fst =
      (scrape_books env false old_file fuel).map Prod.fst := by
  have hmatch : ∀ save0 : Bool, scrape_books env save0 old_file fuel =
      match collect_all_books_links env.page_fetch 1 fuel with
      | none => none
      | some all_links =>
        some (process_books_in_batches (get_book_data env.book_fetch)
            env.complete (env.to_list all_links) 50,
          if save0 then file_after_save old_file (process_books_in_batches
            (get_book_data env.book_fetch) env.complete (env.to_list all_links) 50)
          else old_file) := fun _ => rfl
  cases h : collect_all_books_links env.page_fetch 1 fuel with
  | none =>
    refine ⟨?_, ?_, ?_⟩
    · intro recs f2 he
      rw [hmatch false, h] at he
      simp at he
    · intro recs f2 he
      rw [hmatch true, h] at he
      simp at he
    · rw [hmatch true, hmatch false, h]
  | some links =>
    refine ⟨?_, ?_, ?_⟩
    · intro recs f2 he
      rw [hmatch false, h] at he
      simp only [Bool.false_eq_true, if_false, Option.some.injEq, Prod.mk.injEq] at he
      exact he.2.symm
    · intro recs f2 he
      rw [hmatch true, h] at he
      simp only [if_true, Option.some.injEq, Prod.mk.injEq, file_after_save] at he
      rw [← he.2, he.1]
    · rw [hmatch true, hmatch false, h]
      simp

/-- Witness for C10: in the minimal environment both runs return the
empty record list; the no-save run leaves the (absent) file absent, the
save run writes the empty serialization. -/
theorem c10_save_flag_frame_witness :
    ((none : Option String) = none) ∧
    (some (save_books_to_file []) : Option String) = some (save_books_to_file []) ∧
    (scrape_books c10_env true none 1).map Prod.fst =
      (scrape_books c10_env false none 1).map Prod.fst :=
  ⟨(c10_save_flag_frame c10_env none 1).1 [] none rfl,
   (c10_save_flag_frame c10_env none 1).2.1 [] (some (save_books_to_file [])) rfl,
   (c10_save_flag_frame c10_env none 1).2.2⟩

end BookScraper
